import Mathlib

/-!
Verification of the CloudAHK Node.js client's output-analysis core
(`_parseResult`, `_detectErrors`, `_classifyError`, `_generateSummary`).

Strings are modelled as `List Char`; JavaScript's `String.prototype.trim`,
`startsWith`, `split('\n')` and the regular expressions of the error-pattern
registry are embedded as executable functions on `List Char`.  Whitespace is
modelled as the ASCII whitespace characters (space, tab, LF, CR, VT, FF);
string lengths count characters.  Each regular expression of the source is
translated into an explicit matcher; the `\s+`/`\s*` pieces are followed by
non-whitespace literals in every pattern, so greedy matching without
backtracking is exact.
-/

namespace CloudAHK

/-- A string, modelled as its list of characters. -/
abbrev Str := List Char

/-- Character list of a Lean string literal. -/
def str (s : String) : Str := s.data

/-- ASCII whitespace, the relevant fragment of JavaScript's `\s` / `trim` class. -/
def isWS (c : Char) : Bool :=
  c = ' ' || c = '\t' || c = '\n' || c = '\r' || c = '\x0b' || c = '\x0c'

/-- Remove leading whitespace. -/
def trimLeft : Str → Str
  | [] => []
  | c :: cs => if isWS c then trimLeft cs else c :: cs

/-- Remove trailing whitespace. -/
def trimRight (s : Str) : Str := (trimLeft s.reverse).reverse

/-- JavaScript `s.trim()`: remove leading and trailing whitespace. -/
def trim (s : Str) : Str := trimLeft (trimRight s)

/-- Character-wise lower-casing, used to model the `/i` regex flag. -/
def lowerStr (s : Str) : Str := s.map Char.toLower

/-- JavaScript `s.startsWith(p)`. -/
def startsWith (s p : Str) : Bool := List.isPrefixOf p s

/-- Whether `pat` occurs as a contiguous substring of `s`
(the semantics of an unanchored regex literal test). -/
def containsStr : Str → Str → Bool
  | [], pat => pat.isEmpty
  | c :: cs, pat => List.isPrefixOf pat (c :: cs) || containsStr cs pat

/-- Strip the literal prefix `p` from `s`, or fail. -/
def dropPrefixQ : Str → Str → Option Str
  | s, [] => some s
  | [], _ :: _ => none
  | c :: cs, p :: ps => if c = p then dropPrefixQ cs ps else none

/-- Match `\s+` (followed in every use by a non-whitespace literal, so the
greedy reading is exact): require one whitespace character, consume the run. -/
def dropWS1 : Str → Option Str
  | [] => none
  | c :: cs => if isWS c then some (cs.dropWhile isWS) else none

/-- Match `\d+:` at the start of `s` (regex `/^\d+:/`). -/
def startsNumColon : Str → Bool
  | [] => false
  | c :: cs => c.isDigit && startsWith (cs.dropWhile Char.isDigit) (str ":")

/-- Regex `/^Error(?:\s+in\s+#include)?:/i` applied to `t`. -/
def pErrorInclude (t : Str) : Bool :=
  let lt := lowerStr t
  startsWith lt (str "error:") ||
    (match dropPrefixQ lt (str "error") with
      | none => false
      | some r =>
        match dropWS1 r with
        | none => false
        | some r2 =>
          match dropPrefixQ r2 (str "in") with
          | none => false
          | some r3 =>
            match dropWS1 r3 with
            | none => false
            | some r4 => startsWith r4 (str "#include:"))

/-- Regex `/^Error:\s+/i`. -/
def pErrorWS (t : Str) : Bool :=
  match dropPrefixQ (lowerStr t) (str "error:") with
  | some (c :: _) => isWS c
  | _ => false

/-- Match `-->\s*kw` at the current position. -/
def arrowThen (kw s : Str) : Bool :=
  match dropPrefixQ s (str "-->") with
  | some r => startsWith (r.dropWhile isWS) kw
  | none => false

/-- Unanchored search: does `f` match at some position of `s`? -/
def anywhere (f : Str → Bool) : Str → Bool
  | [] => f []
  | c :: cs => f (c :: cs) || anywhere f cs

/-- Regex matching "-->", then optional whitespace, then "Line Text:", case-insensitively, anywhere in the line. -/
def pArrowLineText (t : Str) : Bool :=
  anywhere (arrowThen (str "line text:")) (lowerStr t)

/-- Regex matching "-->", then optional whitespace, then "Line#:", case-insensitively, anywhere in the line. -/
def pArrowLineNum (t : Str) : Bool :=
  anywhere (arrowThen (str "line#:")) (lowerStr t)

/-- Regex `/^Specifically:\s+/i`. -/
def pSpecifically (t : Str) : Bool :=
  match dropPrefixQ (lowerStr t) (str "specifically:") with
  | some (c :: _) => isWS c
  | _ => false

/-- Regex `/^The following variable name contains an illegal character:/i`. -/
def pIllegalChar (t : Str) : Bool :=
  startsWith (lowerStr t) (str "the following variable name contains an illegal character:")

/-- Regex `/^Call to nonexistent function/i`. -/
def pNonexistentFn (t : Str) : Bool :=
  startsWith (lowerStr t) (str "call to nonexistent function")

/-- Regex `/^Duplicate (?:function|label|hotkey)/i`. -/
def pDuplicate (t : Str) : Bool :=
  match dropPrefixQ (lowerStr t) (str "duplicate ") with
  | some r => startsWith r (str "function") || startsWith r (str "label") ||
      startsWith r (str "hotkey")
  | none => false

/-- Regex `/^Invalid hotkey/i`. -/
def pInvalidHotkey (t : Str) : Bool :=
  startsWith (lowerStr t) (str "invalid hotkey")

/-- Regex `/^Missing (?:comma|closing|opening)/i`. -/
def pMissing (t : Str) : Bool :=
  match dropPrefixQ (lowerStr t) (str "missing ") with
  | some r => startsWith r (str "comma") || startsWith r (str "closing") ||
      startsWith r (str "opening")
  | none => false

/-- Regex `/^Unexpected end of file/i`. -/
def pUnexpectedEOF (t : Str) : Bool :=
  startsWith (lowerStr t) (str "unexpected end of file")

/-- Regex `/^This line does not contain a recognized action/i`. -/
def pNoRecognizedAction (t : Str) : Bool :=
  startsWith (lowerStr t) (str "this line does not contain a recognized action")

/-- Regex `/^Target label does not exist/i`. -/
def pTargetLabel (t : Str) : Bool :=
  startsWith (lowerStr t) (str "target label does not exist")

/-- The case-sensitive AHK v2 typed-error heads of
`/^(?:Error|ValueError|...|ZeroDivisionError):/`. -/
def v2Heads : List Str :=
  [str "Error:", str "ValueError:", str "TypeError:", str "OSError:",
   str "TargetError:", str "MemberError:", str "PropertyError:",
   str "MethodError:", str "UnsetError:", str "UnsetItemError:",
   str "ZeroDivisionError:"]

/-- Regex `/^(?:Error|ValueError|TypeError|OSError|TargetError|MemberError|PropertyError|MethodError|UnsetError|UnsetItemError|ZeroDivisionError):/` (no `i` flag). -/
def pV2Typed (t : Str) : Bool := v2Heads.any (fun h => startsWith t h)

/-- Regex `/^\s+Line \d+:/` (case-sensitive, requires leading whitespace). -/
def pV2Line (t : Str) : Bool :=
  match dropWS1 t with
  | some r =>
    match dropPrefixQ r (str "Line ") with
    | some r2 => startsNumColon r2
    | none => false
  | none => false

/-- Regex `/^\s+What: /`. -/
def pV2What (t : Str) : Bool :=
  match dropWS1 t with
  | some r => startsWith r (str "What: ")
  | none => false

/-- Regex `/^\s+File: /`. -/
def pV2File (t : Str) : Bool :=
  match dropWS1 t with
  | some r => startsWith r (str "File: ")
  | none => false

/-- Regex `/^\s+Stack:/`. -/
def pV2Stack (t : Str) : Bool :=
  match dropWS1 t with
  | some r => startsWith r (str "Stack:")
  | none => false

/-- Regex `/^wine:/i`. -/
def pWine (t : Str) : Bool := startsWith (lowerStr t) (str "wine:")

/-- Regex `/^err:/i`. -/
def pErr (t : Str) : Bool := startsWith (lowerStr t) (str "err:")

/-- Regex `/^fixme:/i`. -/
def pFixme (t : Str) : Bool := startsWith (lowerStr t) (str "fixme:")

/-- `errorPatterns.some(pattern => pattern.test(trimmedLine))`: the disjunction
of the whole pattern registry, applied to the trimmed line. -/
def isErrorLinePred (t : Str) : Bool :=
  pErrorInclude t || pErrorWS t || pArrowLineText t || pArrowLineNum t ||
  pSpecifically t || pIllegalChar t || pNonexistentFn t || pDuplicate t ||
  pInvalidHotkey t || pMissing t || pUnexpectedEOF t || pNoRecognizedAction t ||
  pTargetLabel t || pV2Typed t || pV2Line t || pV2What t || pV2File t ||
  pV2Stack t || pWine t || pErr t || pFixme t

/-- The error taxonomy: `'syntax'`, `'reference'`, `'type'`, `'timeout'`,
`'wine'`, `'runtime'` of the source, as an enumeration. -/
inductive ErrorKind where
  | synt
  | ref
  | typ
  | timeout
  | wine
  | runtime
deriving DecidableEq

/-- `_classifyError(message)`: ordered, case-insensitive keyword heuristics.
Each regex is an unanchored substring test on the message. -/
def _classifyError (m : Str) : ErrorKind :=
  if containsStr (lowerStr m) (str "syntax") || containsStr (lowerStr m) (str "unexpected") ||
      containsStr (lowerStr m) (str "missing") || containsStr (lowerStr m) (str "invalid") then .synt
  else if containsStr (lowerStr m) (str "undefined") || containsStr (lowerStr m) (str "nonexistent") ||
      containsStr (lowerStr m) (str "not found") || containsStr (lowerStr m) (str "unset") then .ref
  else if containsStr (lowerStr m) (str "type") || containsStr (lowerStr m) (str "typeerror") then .typ
  else if containsStr (lowerStr m) (str "timeout") || containsStr (lowerStr m) (str "timed out") then .timeout
  else if containsStr (lowerStr m) (str "wine:") || containsStr (lowerStr m) (str "err:") ||
      containsStr (lowerStr m) (str "fixme:") then .wine
  else .runtime

/-- One detected error record (`{line, message, context, type}` in the source). -/
structure AHKError where
  line : Nat
  message : Str
  context : List Str
  type : ErrorKind
deriving DecidableEq

/-- The loop state of `_detectErrors`: the accumulated `errors` array, the
`currentError` being built, and the `inErrorBlock` flag. -/
structure DetectState where
  errors : List AHKError
  current : Option AHKError
  inErrorBlock : Bool
deriving DecidableEq

/-- `if (currentError) errors.push(currentError)` as a list. -/
def optList : Option AHKError → List AHKError
  | some e => [e]
  | none => []

/-- `trimmedLine.startsWith('-->') || ... || /^\d+:/.test(trimmedLine)`:
the continuation-pattern test of the first context branch (case-sensitive). -/
def isContinuation (t : Str) : Bool :=
  startsWith t (str "-->") || startsWith t (str "Line") ||
  startsWith t (str "What:") || startsWith t (str "File:") ||
  startsWith t (str "Stack:") || startsNumColon t

/-- The body of the `for` loop of `_detectErrors` for line index `i` (0-based).
The closing condition is kept exactly as written in the source: it tests the
already-trimmed line for leading whitespace. -/
def detectStep (st : DetectState) (i : Nat) (line : Str) : DetectState :=
  let trimmedLine := trim line
  if isErrorLinePred trimmedLine then
    { errors := st.errors ++ optList st.current,
      current := some { line := i + 1, message := trimmedLine, context := [],
                        type := _classifyError trimmedLine },
      inErrorBlock := true }
  else if st.inErrorBlock then
    match st.current with
    | some cur =>
        if isContinuation trimmedLine then
          { st with current := some { cur with context := cur.context ++ [trimmedLine] } }
        else if trimmedLine.isEmpty ||
            (!startsWith trimmedLine (str " ") && !startsWith trimmedLine (str "\t")) then
          { errors := st.errors ++ [cur], current := none, inErrorBlock := false }
        else
          { st with current := some { cur with context := cur.context ++ [trimmedLine] } }
    | none => st
  else st

/-- Run the loop over the remaining lines, `i` the index of the first one. -/
def runDetect : List Str → Nat → DetectState → DetectState
  | [], _, st => st
  | l :: ls, i, st => runDetect ls (i + 1) (detectStep st i l)

/-- JavaScript `output.split('\n')`. -/
def splitOnNl : Str → List Str
  | [] => [[]]
  | c :: cs =>
      if c = '\n' then [] :: splitOnNl cs
      else
        match splitOnNl cs with
        | l :: ls => (c :: l) :: ls
        | [] => [[c]]

/-- The loop state at entry of `_detectErrors`. -/
def initState : DetectState := { errors := [], current := none, inErrorBlock := false }

/-- The final flush: the loop's `errors` plus the still-open `currentError`. -/
def finalErrors (st : DetectState) : List AHKError := st.errors ++ optList st.current

/-- `_detectErrors(output)`. -/
def _detectErrors (output : Str) : List AHKError :=
  finalErrors (runDetect (splitOnNl output) 0 initState)

/-- The string the source stores in an error's `type` field. -/
def kindStr : ErrorKind → Str
  | .synt => str "syntax"
  | .ref => str "reference"
  | .typ => str "type"
  | .timeout => str "timeout"
  | .wine => str "wine"
  | .runtime => str "runtime"

/-- Decimal rendering of a number, for the error-count interpolation. -/
def natToStr (n : Nat) : Str := str (toString n)

/-- JavaScript `array.join(sep)`. -/
def joinSep (sep : Str) : List Str → Str
  | [] => []
  | [x] => x
  | x :: y :: xs => x ++ sep ++ joinSep sep (y :: xs)

/-- One entry of the failure summary's `errors.map(...)`. -/
def renderError (e : AHKError) : Str :=
  let msg := str "[" ++ kindStr e.type ++ str "] " ++ e.message
  if e.context.length > 0 then
    msg ++ str "\n  " ++ joinSep (str "\n  ") (e.context.take 3)
  else msg

/-- `_generateSummary(output, errors, timedOut)`. -/
def _generateSummary (output : Str) (errors : List AHKError) (timedOut : Bool) : Str :=
  if timedOut then
    str "Script execution timed out (exceeded 7 seconds). Check for infinite loops or blocking operations."
  else if errors.length = 0 then
    let outputPreview := if output.length > 200 then output.take 200 ++ str "..." else output
    str "Script executed successfully.\nOutput: " ++
      (if outputPreview.isEmpty then str "(no output)" else outputPreview)
  else
    str "Script failed with " ++ natToStr errors.length ++ str " error(s):\n\n" ++
      joinSep (str "\n\n") (errors.map renderError)

/-- The fields of the API response that `_parseResult` reads.  `stdout` is
`none` when the field is absent (the `result.stdout || ''` fallback),
`time` is `none` for the timeout sentinel `null`. -/
structure ApiResult where
  stdout : Option Str
  time : Option ℚ
  language : Str
deriving DecidableEq

/-- The `ExecutionResult` record built by `_parseResult`. -/
structure ExecutionResult where
  success : Bool
  output : Str
  executionTime : Option ℚ
  timedOut : Bool
  language : Str
  errors : List AHKError
  hasErrors : Bool
  summary : Str
deriving DecidableEq

/-- `_parseResult(result, code)` (the `code` argument is unused by the source). -/
def _parseResult (result : ApiResult) (_code : Str) : ExecutionResult :=
  let output := result.stdout.getD []
  let timedOut := result.time.isNone
  let errors := _detectErrors output
  { success := (errors.length == 0) && !timedOut
    output := output
    executionTime := result.time
    timedOut := timedOut
    language := result.language
    errors := errors
    hasErrors := decide (errors.length > 0)
    summary := _generateSummary output errors timedOut }

/-- Classification as claim C5 states it: identical keyword rules, except that
rule 5 requires the message to START with "wine:", "err:" or "fixme:". -/
def classifyClaimC5 (m : Str) : ErrorKind :=
  if containsStr (lowerStr m) (str "syntax") || containsStr (lowerStr m) (str "unexpected") ||
      containsStr (lowerStr m) (str "missing") || containsStr (lowerStr m) (str "invalid") then .synt
  else if containsStr (lowerStr m) (str "undefined") || containsStr (lowerStr m) (str "nonexistent") ||
      containsStr (lowerStr m) (str "not found") || containsStr (lowerStr m) (str "unset") then .ref
  else if containsStr (lowerStr m) (str "type") then .typ
  else if containsStr (lowerStr m) (str "timeout") || containsStr (lowerStr m) (str "timed out") then .timeout
  else if startsWith (lowerStr m) (str "wine:") || startsWith (lowerStr m) (str "err:") ||
      startsWith (lowerStr m) (str "fixme:") then .wine
  else .runtime

/-- Classification as amended: rule 5 is a case-insensitive CONTAINS test for
"wine:", "err:", "fixme:", like rules 1-4; otherwise the spec's rule list. -/
def classifyClaimC5Amended (m : Str) : ErrorKind :=
  if containsStr (lowerStr m) (str "syntax") || containsStr (lowerStr m) (str "unexpected") ||
      containsStr (lowerStr m) (str "missing") || containsStr (lowerStr m) (str "invalid") then .synt
  else if containsStr (lowerStr m) (str "undefined") || containsStr (lowerStr m) (str "nonexistent") ||
      containsStr (lowerStr m) (str "not found") || containsStr (lowerStr m) (str "unset") then .ref
  else if containsStr (lowerStr m) (str "type") then .typ
  else if containsStr (lowerStr m) (str "timeout") || containsStr (lowerStr m) (str "timed out") then .timeout
  else if containsStr (lowerStr m) (str "wine:") || containsStr (lowerStr m) (str "err:") ||
      containsStr (lowerStr m) (str "fixme:") then .wine
  else .runtime

/-- The success summary as claim C7 states it: the placeholder is used when the
output is empty OR consists only of whitespace. -/
def summaryClaimC7 (output : Str) : Str :=
  let outputPreview := if output.length > 200 then output.take 200 ++ str "..." else output
  if (trim output).isEmpty then
    str "Script executed successfully.\nOutput: " ++ str "(no output)"
  else
    str "Script executed successfully.\nOutput: " ++ outputPreview

/-- The success summary as amended: the placeholder is used exactly when the
output is the empty string; whitespace-only output is embedded as-is. -/
def summaryClaimC7Amended (output : Str) : Str :=
  let outputPreview := if output.length > 200 then output.take 200 ++ str "..." else output
  if output.isEmpty then
    str "Script executed successfully.\nOutput: " ++ str "(no output)"
  else
    str "Script executed successfully.\nOutput: " ++ outputPreview

/-- The record with line number `n` and message `m` is an error header of the
line list `L`: some line `l` of `L` stands at 1-based position `n`, `m` is its
trimmed form, and that trimmed form matches a start pattern. -/
def headerAt (L : List Str) (n : Nat) (m : Str) : Prop :=
  ∃ pre l post, L = pre ++ l :: post ∧ pre.length + 1 = n ∧ m = trim l ∧
    isErrorLinePred (trim l) = true

/-! Helper lemmas about trimming and the segmenter's branches. -/

/-- The head of a left-trimmed string is never whitespace. -/
lemma trimLeft_head_not_ws : ∀ (s : Str) {c : Char} {cs : Str},
    trimLeft s = c :: cs → isWS c = false := by
  intro s
  induction s with
  | nil => intro c cs h; simp [trimLeft] at h
  | cons a as ih =>
    intro c cs h
    by_cases ha : isWS a = true
    · rw [trimLeft, if_pos ha] at h
      exact ih h
    · rw [trimLeft, if_neg ha] at h
      cases h
      exact Bool.eq_false_iff.mpr ha

/-- The head of a trimmed string is never whitespace. -/
lemma trim_head_not_ws {s : Str} {c : Char} {cs : Str} (h : trim s = c :: cs) :
    isWS c = false :=
  trimLeft_head_not_ws _ h

/-- The closing test of the segmenter is a tautology: it asks whether the
already-trimmed line is empty or does not start with a space or a tab, and a
trimmed line can never start with either. -/
lemma trim_close_cond (s : Str) :
    ((trim s).isEmpty ||
      (!startsWith (trim s) (str " ") && !startsWith (trim s) (str "\t"))) = true := by
  cases h : trim s with
  | nil => rfl
  | cons c cs =>
    have hc := trim_head_not_ws h
    simp only [isWS, Bool.or_eq_false_iff, decide_eq_false_iff_not] at hc
    obtain ⟨⟨⟨⟨⟨hsp', htb'⟩, _⟩, _⟩, _⟩, _⟩ := hc
    have hsp : startsWith (c :: cs) (str " ") = false := by
      simp only [startsWith, str, List.isPrefixOf, Bool.and_eq_false_iff]
      simp only [beq_eq_false_iff_ne, ne_eq]
      exact Or.inl fun h' => hsp' h'.symm
    have htb : startsWith (c :: cs) (str "\t") = false := by
      simp only [startsWith, str, List.isPrefixOf, Bool.and_eq_false_iff]
      simp only [beq_eq_false_iff_ne, ne_eq]
      exact Or.inl fun h' => htb' h'.symm
    simp [hsp, htb]

/-- The four observable shapes of one segmenter step: open a new block (pushing
any pending record), append context to the open record, close the open record
discarding the line, or leave the state unchanged. -/
lemma detectStep_cases (st : DetectState) (i : Nat) (line : Str) :
    (isErrorLinePred (trim line) = true ∧
      detectStep st i line =
        { errors := st.errors ++ optList st.current,
          current := some { line := i + 1, message := trim line, context := [],
                            type := _classifyError (trim line) },
          inErrorBlock := true }) ∨
    (∃ cur, st.current = some cur ∧ st.inErrorBlock = true ∧
      detectStep st i line =
        { errors := st.errors,
          current := some { cur with context := cur.context ++ [trim line] },
          inErrorBlock := true }) ∨
    (∃ cur, st.current = some cur ∧
      detectStep st i line =
        { errors := st.errors ++ [cur], current := none, inErrorBlock := false }) ∨
    detectStep st i line = st := by
  by_cases h1 : isErrorLinePred (trim line) = true
  · exact Or.inl ⟨h1, by simp [detectStep, h1]⟩
  · cases hb : st.inErrorBlock with
    | false =>
      refine Or.inr (Or.inr (Or.inr ?_))
      simp [detectStep, h1, hb]
    | true =>
      cases hc : st.current with
      | none =>
        refine Or.inr (Or.inr (Or.inr ?_))
        simp [detectStep, h1, hb, hc]
      | some cur =>
        by_cases hcont : isContinuation (trim line) = true
        · refine Or.inr (Or.inl ⟨cur, rfl, rfl, ?_⟩)
          simp [detectStep, h1, hb, hc, hcont]
        · refine Or.inr (Or.inr (Or.inl ⟨cur, rfl, ?_⟩))
          simp [detectStep, h1, hb, hc, hcont, trim_close_cond]

/-- While a block is open, a line that is neither a start line nor matches a
continuation pattern closes the block: the pending record is finalized
unchanged and the line is discarded. -/
lemma detectStep_closes (st : DetectState) (i : Nat) (line : Str) (cur : AHKError)
    (hb : st.inErrorBlock = true) (hc : st.current = some cur)
    (hstart : isErrorLinePred (trim line) = false)
    (hcont : isContinuation (trim line) = false) :
    detectStep st i line =
      { errors := st.errors ++ [cur], current := none, inErrorBlock := false } := by
  simp [detectStep, hstart, hb, hc, hcont, trim_close_cond]

/-- One step only appends to the `errors` array. -/
lemma detectStep_errors_extend (st : DetectState) (i : Nat) (line : Str) :
    ∃ d, (detectStep st i line).errors = st.errors ++ d := by
  rcases detectStep_cases st i line with ⟨_, h⟩ | ⟨cur, _, _, h⟩ | ⟨cur, _, h⟩ | h
  · exact ⟨optList st.current, by rw [h]⟩
  · exact ⟨[], by rw [h]; simp⟩
  · exact ⟨[cur], by rw [h]⟩
  · exact ⟨[], by rw [h]; simp⟩

/-- The flushed result of the remaining loop extends the accumulated `errors`. -/
lemma runDetect_errors_prefix :
    ∀ (ls : List Str) (i : Nat) (st : DetectState),
      ∃ d, finalErrors (runDetect ls i st) = st.errors ++ d := by
  intro ls
  induction ls with
  | nil => exact fun i st => ⟨optList st.current, rfl⟩
  | cons l ls ih =>
    intro i st
    obtain ⟨d1, hd1⟩ := detectStep_errors_extend st i l
    obtain ⟨d2, hd2⟩ := ih (i + 1) (detectStep st i l)
    exact ⟨d1 ++ d2, by rw [runDetect, hd2, hd1, List.append_assoc]⟩

/-- Running the loop from a state with an open record yields the accumulated
errors, then a record with the open record's line and message, then the rest. -/
lemma runDetect_open_block :
    ∀ (ls : List Str) (i : Nat) (E : List AHKError) (cur : AHKError),
      ∃ e tail,
        finalErrors (runDetect ls i ⟨E, some cur, true⟩) = E ++ e :: tail ∧
        e.line = cur.line ∧ e.message = cur.message := by
  intro ls
  induction ls with
  | nil => exact fun i E cur => ⟨cur, [], rfl, rfl, rfl⟩
  | cons l ls ih =>
    intro i E cur
    rcases detectStep_cases ⟨E, some cur, true⟩ i l with
      ⟨_, h⟩ | ⟨cur', hc, _, h⟩ | ⟨cur', hc, h⟩ | h
    · obtain ⟨e, tl, he, hl, hm⟩ := ih (i + 1) (E ++ [cur])
        { line := i + 1, message := trim l, context := [],
          type := _classifyError (trim l) }
      refine ⟨cur, e :: tl, ?_, rfl, rfl⟩
      rw [runDetect, h]
      simp only [optList] at he ⊢
      rw [he, List.append_assoc]
      rfl
    · have hcc : cur' = cur := Option.some.inj hc.symm
      rw [hcc] at h
      obtain ⟨e, tl, he, hl, hm⟩ :=
        ih (i + 1) E { cur with context := cur.context ++ [trim l] }
      refine ⟨e, tl, ?_, hl, hm⟩
      rw [runDetect, h]
      exact he
    · have hcc : cur' = cur := Option.some.inj hc.symm
      rw [hcc] at h
      obtain ⟨d, hd⟩ := runDetect_errors_prefix ls (i + 1)
        ⟨E ++ [cur], none, false⟩
      refine ⟨cur, d, ?_, rfl, rfl⟩
      rw [runDetect, h]
      simp only at hd
      rw [hd, List.append_assoc]
      rfl
    · obtain ⟨e, tl, he, hl, hm⟩ := ih (i + 1) E cur
      refine ⟨e, tl, ?_, hl, hm⟩
      rw [runDetect, h]
      exact he

/-- The loop over a concatenation runs the two pieces in sequence. -/
lemma runDetect_append :
    ∀ (a b : List Str) (i : Nat) (st : DetectState),
      runDetect (a ++ b) i st = runDetect b (i + a.length) (runDetect a i st) := by
  intro a
  induction a with
  | nil => intro b i st; simp [runDetect]
  | cons x xs ih =>
    intro b i st
    rw [List.cons_append, runDetect, runDetect, ih]
    have hlen : i + 1 + xs.length = i + (x :: xs).length := by
      simp [List.length_cons]
      omega
    rw [hlen]

/-- The line numbers of the flushed records, in order. -/
def lineNums (st : DetectState) : List Nat := (finalErrors st).map AHKError.line

/-- A step keeps the line-number list strictly increasing and bounded by the
next line index: it either appends `i + 1` or leaves the list unchanged. -/
lemma detectStep_lineNums (st : DetectState) (i : Nat) (line : Str) :
    lineNums (detectStep st i line) = lineNums st ++ [i + 1] ∨
    lineNums (detectStep st i line) = lineNums st := by
  rcases detectStep_cases st i line with ⟨_, h⟩ | ⟨cur, hc, _, h⟩ | ⟨cur, hc, h⟩ | h
  · left
    rw [h]
    simp [lineNums, finalErrors, optList]
  · right
    rw [h]
    simp [lineNums, finalErrors, hc, optList]
  · right
    rw [h]
    simp [lineNums, finalErrors, hc, optList]
  · right
    rw [h]

/-- Running the loop preserves strict increase of the line numbers, given that
all already-recorded line numbers are at most the next index. -/
lemma runDetect_pairwise :
    ∀ (ls : List Str) (i : Nat) (st : DetectState),
      List.Pairwise (· < ·) (lineNums st) →
      (∀ x ∈ lineNums st, x ≤ i) →
      List.Pairwise (· < ·) (lineNums (runDetect ls i st)) := by
  intro ls
  induction ls with
  | nil => exact fun i st hp _ => hp
  | cons l ls ih =>
    intro i st hp hb
    rw [runDetect]
    rcases detectStep_lineNums st i l with h | h
    · refine ih (i + 1) _ ?_ ?_
      · rw [h, List.pairwise_append]
        refine ⟨hp, List.pairwise_singleton _ _, ?_⟩
        intro a ha b hbm
        rw [List.mem_singleton] at hbm
        subst hbm
        exact Nat.lt_succ_of_le (hb a ha)
      · intro x hx
        rw [h, List.mem_append] at hx
        rcases hx with hx | hx
        · exact Nat.le_succ_of_le (hb x hx)
        · rw [List.mem_singleton] at hx
          omega
    · refine ih (i + 1) _ (h ▸ hp) ?_
      intro x hx
      rw [h] at hx
      exact Nat.le_succ_of_le (hb x hx)

/-- A step preserves the header correspondence: every flushed record's line
number and message come from a start line of `L` at that position, provided
the line being processed is `L`'s line at index `i`. -/
lemma detectStep_headers (L : List Str) (pre0 : List Str) (post0 : List Str)
    (st : DetectState) (i : Nat) (line : Str)
    (hL : L = pre0 ++ line :: post0) (hlen : pre0.length = i)
    (hgood : ∀ e ∈ finalErrors st, headerAt L e.line e.message) :
    ∀ e ∈ finalErrors (detectStep st i line), headerAt L e.line e.message := by
  rcases detectStep_cases st i line with ⟨hstart, h⟩ | ⟨cur, hc, _, h⟩ | ⟨cur, hc, h⟩ | h
  · intro e he
    rw [h] at he
    simp only [finalErrors, optList, List.append_assoc, List.mem_append] at he
    rcases he with he | he
    · exact hgood e (by simp [finalErrors, List.mem_append, he])
    · rcases he with he | he
      · exact hgood e (by simp [finalErrors, optList, List.mem_append, he])
      · rw [List.mem_singleton] at he
        subst he
        exact ⟨pre0, line, post0, hL, by rw [hlen], rfl, hstart⟩
  · intro e he
    rw [h] at he
    simp only [finalErrors, optList, List.mem_append, List.mem_singleton] at he
    rcases he with he | he
    · exact hgood e (by simp [finalErrors, List.mem_append, he])
    · subst he
      exact hgood cur (by simp [finalErrors, hc, optList])
  · intro e he
    rw [h] at he
    simp only [finalErrors, optList, List.append_nil, List.mem_append,
      List.mem_singleton] at he
    rcases he with he | he
    · exact hgood e (by simp [finalErrors, List.mem_append, he])
    · subst he
      apply hgood
      simp [finalErrors, hc, optList]
  · rw [h]
    exact hgood

/-- Running the loop over the suffix of `L` that starts at index `i` preserves
the header correspondence. -/
lemma runDetect_headers (L : List Str) :
    ∀ (ls : List Str) (i : Nat) (st : DetectState),
      (∃ pre, L = pre ++ ls ∧ pre.length = i) →
      (∀ e ∈ finalErrors st, headerAt L e.line e.message) →
      ∀ e ∈ finalErrors (runDetect ls i st), headerAt L e.line e.message := by
  intro ls
  induction ls with
  | nil => exact fun i st _ hgood => hgood
  | cons l ls ih =>
    intro i st hpre hgood
    obtain ⟨pre0, hL, hlen⟩ := hpre
    rw [runDetect]
    refine ih (i + 1) (detectStep st i l) ⟨pre0 ++ [l], ?_, ?_⟩ ?_
    · rw [hL, List.append_assoc]
      rfl
    · simp [hlen]
    · exact detectStep_headers L pre0 ls st i l hL hlen hgood

/-- Substring containment is antitone in the pattern: a string containing a
pattern also contains every prefix of that pattern. -/
lemma containsStr_of_prefix :
    ∀ (s p q : Str), List.isPrefixOf p q = true →
      containsStr s q = true → containsStr s p = true := by
  intro s
  induction s with
  | nil =>
    intro p q hpq hq
    rw [containsStr] at hq ⊢
    rw [List.isEmpty_iff] at hq
    subst hq
    cases p with
    | nil => rfl
    | cons a as => simp [List.isPrefixOf] at hpq
  | cons c cs ih =>
    intro p q hpq hq
    rw [containsStr, Bool.or_eq_true] at hq ⊢
    rcases hq with hq | hq
    · left
      rw [List.isPrefixOf_iff_prefix] at hpq hq ⊢
      exact hpq.trans hq
    · exact Or.inr (ih p q hpq hq)

/-- Appending the ellipsis makes a string non-empty. -/
lemma isEmpty_append_dots (l : Str) : (l ++ str "...").isEmpty = false := by
  cases l <;> rfl

/-! The claims. -/

/-- C1: for every API result (raw output string and executionTime value) and
code, the constructed outcome satisfies `success == (errors.length == 0 &&
!timedOut)` and `timedOut == (executionTime == null)`. -/
theorem parseResult_success_timedOut_invariant (result : ApiResult) (code : Str) :
    (_parseResult result code).success =
      (((_parseResult result code).errors.length == 0) &&
        !(_parseResult result code).timedOut) ∧
    (_parseResult result code).timedOut =
      (_parseResult result code).executionTime.isNone :=
  ⟨rfl, rfl⟩

/-- C2 (code bug): an indented, non-empty, non-start line inside an open error
block is NOT appended to the context — the segmenter tests the already-trimmed
line for indentation, so it closes the block and discards the line.  For the
header "Error: oops" followed by one indented non-blank non-start line and a
blank line, the record's context is empty, where the claim requires length 1. -/
theorem detectErrors_indented_context_dropped :
    _detectErrors (str "Error: oops\n    stuff here\n") =
      [{ line := 1, message := str "Error: oops", context := [],
         type := ErrorKind.runtime }] := by
  rfl

/-- C3 counterexample: while a block is open, the line "File: x" has no leading
whitespace, yet the segmenter does not close the block and discard it — the
line matches a continuation pattern and is consumed as context. -/
theorem unindented_continuation_consumed_as_context :
    (_detectErrors (str "Error: oops\nFile: x")).map AHKError.context =
      [[str "File: x"]] ∧ [str "File: x"] ≠ ([] : List Str) := by
  exact ⟨rfl, by simp [str]⟩

/-- C3 as amended: while an error block is open, a line that is not a start
line and whose trimmed form is empty, or which has no leading whitespace AND
whose trimmed form does not begin with a continuation marker ("-->", "Line",
"What:", "File:", "Stack:", or digits followed by ":"), finalizes and closes
the current block, and that line itself is discarded — it is never consumed as
context of the block. -/
theorem block_close_discards_line (st : DetectState) (i : Nat) (line : Str)
    (cur : AHKError) (hb : st.inErrorBlock = true) (hc : st.current = some cur)
    (hstart : isErrorLinePred (trim line) = false)
    (hdis : (trim line).isEmpty = true ∨
      (startsWith line (str " ") = false ∧ startsWith line (str "\t") = false ∧
        isContinuation (trim line) = false)) :
    detectStep st i line =
      { errors := st.errors ++ [cur], current := none, inErrorBlock := false } := by
  have hcont : isContinuation (trim line) = false := by
    rcases hdis with h | h
    · rw [List.isEmpty_iff] at h
      rw [h]
      rfl
    · exact h.2.2
  exact detectStep_closes st i line cur hb hc hstart hcont

/-- Witness for the amended C3 at a concrete open block and a concrete
unindented, non-continuation line. -/
theorem block_close_discards_line_witness :
    detectStep
      { errors := [],
        current := some { line := 1, message := str "Error: oops", context := [],
                          type := ErrorKind.runtime },
        inErrorBlock := true } 1 (str "stray text") =
      { errors := [{ line := 1, message := str "Error: oops", context := [],
                     type := ErrorKind.runtime }],
        current := none, inErrorBlock := false } :=
  block_close_discards_line _ 1 (str "stray text") _ rfl rfl (by rfl)
    (Or.inr ⟨by rfl, by rfl, by rfl⟩)

/-- C4 (code bug): lines whose stripped form begins with a second-generation
trace marker ("Line N:", "What:", "File:", "Stack:") are never start lines —
the corresponding patterns demand leading whitespace but are tested against
the already-trimmed line, so with no block open such lines are discarded and
no error block is opened. -/
theorem v2_trace_lines_never_start :
    _detectErrors (str "Line 5: foo") = [] ∧
    _detectErrors (str "  Line 5: foo") = [] ∧
    _detectErrors (str "What: x") = [] ∧
    _detectErrors (str "File: x") = [] ∧
    _detectErrors (str "Stack: x") = [] ∧
    (∀ s, pV2Line (trim s) = false ∧ pV2What (trim s) = false ∧
      pV2File (trim s) = false ∧ pV2Stack (trim s) = false) := by
  refine ⟨rfl, rfl, rfl, rfl, rfl, ?_⟩
  intro s
  have hws : ∀ r, dropWS1 (trim s) = r → r = none := by
    intro r hr
    cases h : trim s with
    | nil => rw [h] at hr; exact hr.symm
    | cons c cs =>
      have hc := trim_head_not_ws h
      rw [h, dropWS1, if_neg (by simp [hc])] at hr
      exact hr.symm
  have hnone : dropWS1 (trim s) = none := (hws _ rfl).symm ▸ rfl
  refine ⟨?_, ?_, ?_, ?_⟩ <;> simp [pV2Line, pV2What, pV2File, pV2Stack, hnone]

/-- C5 counterexample: the claim's rule 5 is a starts-with test, but the code's
is a substring test.  The header "Error: foo err: bar" (itself a start line,
so classify really receives it) contains "err:" without starting with it, and
matches no earlier rule, so the code classifies it as wine while the claim's
rule list yields runtime. -/
theorem classify_err_substring_counterexample :
    isErrorLinePred (str "Error: foo err: bar") = true ∧
    _classifyError (str "Error: foo err: bar") = ErrorKind.wine ∧
    classifyClaimC5 (str "Error: foo err: bar") = ErrorKind.runtime := by
  exact ⟨rfl, rfl, rfl⟩

/-- C5 as amended: classify(message) is a pure function of the header message
applying a fixed first-match-wins priority, case-insensitive: (1) contains
"syntax", "unexpected", "missing", or "invalid" → syntax; (2) else "undefined",
"nonexistent", "not found", or "unset" → reference; (3) else "type" → type;
(4) else "timeout" or "timed out" → timeout; (5) else CONTAINS "wine:", "err:",
or "fixme:" → wine; (6) else runtime.  In particular, a header containing both
"syntax" and "undefined" classifies as syntax. -/
theorem classify_matches_amended_spec (message : Str) :
    _classifyError message = classifyClaimC5Amended message := by
  have key : (containsStr (lowerStr message) (str "type") ||
      containsStr (lowerStr message) (str "typeerror")) =
      containsStr (lowerStr message) (str "type") := by
    cases h : containsStr (lowerStr message) (str "type") with
    | true => simp
    | false =>
      simp only [Bool.false_or]
      cases h2 : containsStr (lowerStr message) (str "typeerror") with
      | false => rfl
      | true =>
        have h3 := containsStr_of_prefix (lowerStr message) (str "type")
          (str "typeerror") (by rfl) h2
        rw [h3] at h
        simp at h
  unfold _classifyError classifyClaimC5Amended
  rw [key]

/-- C6: when `timedOut` is true, the summary is the fixed timeout string,
regardless of the output and of the errors list (even a non-empty one), and it
is the summary verbatim. -/
theorem summary_timeout_fixed (output : Str) (errors : List AHKError) :
    _generateSummary output errors true =
      str "Script execution timed out (exceeded 7 seconds). Check for infinite loops or blocking operations." :=
  rfl

/-- C7 counterexample: for the whitespace-only output " " (no timeout, no
errors) the code embeds the whitespace itself after "Output: " — the
placeholder of the claim is not used. -/
theorem summary_whitespace_counterexample :
    _generateSummary (str " ") [] false =
      str "Script executed successfully.\nOutput:  " ∧
    summaryClaimC7 (str " ") =
      str "Script executed successfully.\nOutput: (no output)" ∧
    _generateSummary (str " ") [] false ≠ summaryClaimC7 (str " ") := by
  refine ⟨rfl, rfl, ?_⟩
  decide

/-- C7 as amended: when timedOut is false and errors is empty, the summary is
the success message embedding a preview of the output truncated to 200
characters with an ellipsis suffix if the output is longer than 200
characters, or the placeholder string exactly when the output is empty. -/
theorem summary_success_matches_amended_spec (output : Str) :
    _generateSummary output [] false = summaryClaimC7Amended output := by
  cases output with
  | nil => rfl
  | cons c cs =>
    unfold _generateSummary summaryClaimC7Amended
    by_cases h : 200 < cs.length + 1 <;>
      simp [List.length_cons, h, isEmpty_append_dots, List.isEmpty]

end CloudAHK

namespace CloudAHK

/-- C8: two consecutive start lines with no separating blank line produce two
adjacent error records: the first record's context is empty (it does not
swallow the second header), and the records carry the two headers' positions
and trimmed messages. -/
theorem back_to_back_headers_two_records (output : Str) (pre rest : List Str)
    (h1 h2 : Str) (hsplit : splitOnNl output = pre ++ h1 :: h2 :: rest)
    (hh1 : isErrorLinePred (trim h1) = true)
    (hh2 : isErrorLinePred (trim h2) = true) :
    ∃ before e1 e2 after,
      _detectErrors output = before ++ e1 :: e2 :: after ∧
      e1.line = pre.length + 1 ∧ e1.message = trim h1 ∧ e1.context = [] ∧
      e2.line = pre.length + 2 ∧ e2.message = trim h2 := by
  unfold _detectErrors
  rw [hsplit, runDetect_append, Nat.zero_add, runDetect, runDetect]
  generalize runDetect pre 0 initState = st0
  set A1 : AHKError :=
    { line := pre.length + 1, message := trim h1, context := [],
      type := _classifyError (trim h1) } with hA1
  set A2 : AHKError :=
    { line := pre.length + 2, message := trim h2, context := [],
      type := _classifyError (trim h2) } with hA2
  have s1 : detectStep st0 pre.length h1 =
      { errors := st0.errors ++ optList st0.current, current := some A1,
        inErrorBlock := true } := by
    rw [hA1]
    simp [detectStep, hh1]
  rw [s1]
  have s2 : detectStep
      { errors := st0.errors ++ optList st0.current, current := some A1,
        inErrorBlock := true } (pre.length + 1) h2 =
      { errors := (st0.errors ++ optList st0.current) ++ [A1],
        current := some A2, inErrorBlock := true } := by
    rw [hA2]
    simp [detectStep, hh2, optList]
  rw [s2]
  obtain ⟨e2, tl, he, hl, hm⟩ := runDetect_open_block rest (pre.length + 1 + 1)
    ((st0.errors ++ optList st0.current) ++ [A1]) A2
  rw [he]
  refine ⟨st0.errors ++ optList st0.current, A1, e2, tl, ?_, ?_, ?_, ?_, ?_, hm⟩
  · rw [List.append_assoc]
    rfl
  · rw [hA1]
  · rw [hA1]
  · rw [hA1]
  · rw [hl, hA2]

/-- Witness for C8: the output "Error: a\nError: b" consists of two adjacent
header lines; analysing it yields two adjacent records with the two headers as
messages and an empty first context. -/
theorem back_to_back_headers_two_records_witness :
    ∃ before e1 e2 after,
      _detectErrors (str "Error: a\nError: b") = before ++ e1 :: e2 :: after ∧
      e1.line = 1 ∧ e1.message = trim (str "Error: a") ∧ e1.context = [] ∧
      e2.line = 2 ∧ e2.message = trim (str "Error: b") :=
  back_to_back_headers_two_records (str "Error: a\nError: b") [] []
    (str "Error: a") (str "Error: b") rfl rfl rfl

/-- C9: the detected errors are strictly increasing in line number (hence
sorted ascending), and every record's line number and message are those of a
start line of the output standing at that position — the records appear in
first-occurrence order of the header lines. -/
theorem errors_sorted_by_line (output : Str) :
    List.Pairwise (· < ·) ((_detectErrors output).map AHKError.line) ∧
    ∀ e ∈ _detectErrors output, headerAt (splitOnNl output) e.line e.message := by
  constructor
  · exact runDetect_pairwise (splitOnNl output) 0 initState
      (by simp [lineNums, finalErrors, initState, optList])
      (by simp [lineNums, finalErrors, initState, optList])
  · intro e he
    exact runDetect_headers (splitOnNl output) (splitOnNl output) 0 initState
      ⟨[], rfl, rfl⟩
      (by intro e' he'; simp [finalErrors, initState, optList] at he') e he

/-- C10 (implicit): every analysis result — timed out or not — satisfies
`hasErrors == (errors.length > 0)`; consequently, whenever `timedOut` is
false, `hasErrors == !success`. -/
theorem hasErrors_invariant (result : ApiResult) (code : Str) :
    (_parseResult result code).hasErrors =
      decide ((_parseResult result code).errors.length > 0) ∧
    ((_parseResult result code).timedOut = false →
      (_parseResult result code).hasErrors = !(_parseResult result code).success) := by
  refine ⟨rfl, ?_⟩
  intro h
  have ht : result.time.isNone = false := h
  show decide ((_detectErrors (result.stdout.getD [])).length > 0) =
    !(((_detectErrors (result.stdout.getD [])).length == 0) && !result.time.isNone)
  rw [ht]
  cases (_detectErrors (result.stdout.getD [])).length with
  | zero => rfl
  | succ n => simp

/-- Witness for C10: the unconditional `hasErrors` invariant at a concrete
TIMED-OUT result (`time = null`) with one error in the output, and both parts
— the inner implication discharged — at a concrete non-timed-out result. -/
theorem hasErrors_invariant_witness :
    ((_parseResult { stdout := some (str "Error: x"), time := none,
                     language := str "ahk" } []).hasErrors =
      decide ((_parseResult { stdout := some (str "Error: x"), time := none,
                              language := str "ahk" } []).errors.length > 0)) ∧
    ((_parseResult { stdout := some (str "Error: x"), time := some 1,
                     language := str "ahk" } []).hasErrors =
      decide ((_parseResult { stdout := some (str "Error: x"), time := some 1,
                              language := str "ahk" } []).errors.length > 0)) ∧
    ((_parseResult { stdout := some (str "Error: x"), time := some 1,
                     language := str "ahk" } []).hasErrors =
      !(_parseResult { stdout := some (str "Error: x"), time := some 1,
                       language := str "ahk" } []).success) :=
  ⟨(hasErrors_invariant
      { stdout := some (str "Error: x"), time := none, language := str "ahk" }
      []).1,
   (hasErrors_invariant
      { stdout := some (str "Error: x"), time := some 1, language := str "ahk" }
      []).1,
   (hasErrors_invariant
      { stdout := some (str "Error: x"), time := some 1, language := str "ahk" }
      []).2 rfl⟩

end CloudAHK
